import Mathlib

/-!
Verification of the modular simulator scheduling core of the gromacs repository
(src/gromacs/modularsimulator/simulatoralgorithm.cpp) together with the box-matrix
inversion helper (src/gromacs/math/invertmatrix.cpp).

The C++ classes are shallowly embedded as Lean structures and executable functions.
Machine integers (the `Step` type, a 64-bit signed integer) are modelled as `Int`
(step counts in any run stay far below the overflow boundary, and no arithmetic in
the modelled code can wrap).  The simulation `Time` is an affine function of the
step (`time = startTime + step * timeStep`) and is never consulted by any control
decision in the modelled code, so signaller and element behavior is modelled as a
function of the step alone.  The `do { ... } while` loop in `populateTaskQueue`
has no syntactic termination bound, so it is embedded with an explicit fuel
argument; `none` marks fuel exhaustion and never corresponds to a real behavior
of a terminating C++ execution.
-/

namespace Gmx

/-- The `ModularSimulatorAlgorithm::SignalHelper` record: the shared step-fact
record written by the last-step and neighbor-search signaller callbacks
(`registerLastStepCallback` sets `lastStep_`, `registerNSCallback` sets `nextNSStep_`). -/
structure SignalHelper where
  lastStep : Int
  nextNSStep : Int
deriving DecidableEq, Repr

/-- One entry of the task queue (`SimulatorRunFunction`).  The closures registered
by `populateTaskQueue` are identified by what they invoke: the `preStep` call for a
step (with its neighbor-search flag), a task contributed by an element via the
registrar, the `postStep` call for a step, or the final `teardown` call. -/
inductive SimTask where
  | pre (step : Int) (isNS : Bool)
  | contrib (element : Nat) (idx : Nat)
  | post (step : Int)
  | teardown
deriving DecidableEq, Repr

/-- The mutable state of a `ModularSimulatorAlgorithm` object that the modelled
member functions read or write: the task queue and its cursor (`taskQueue_`,
`taskIterator_`), the step counter (`step_`), the finished flag (`runFinished_`),
the shared step-fact record (`signalHelper_`), the two fields consumed by the stop
handler (`stophandlerIsNSStep_`, `stophandlerCurrentStep_`), and call counters for
the external side effects of `preStep` (`resetHandler_->setSignal`,
`stopHandler_->setSignal`, `wallcycle_start(wcycle, ewcSTEP)`). -/
structure AlgState where
  taskQueue : List SimTask
  taskCursor : Nat
  step : Int
  runFinished : Bool
  signalHelper : SignalHelper
  stophandlerIsNSStep : Bool
  stophandlerCurrentStep : Int
  resetSignalCount : Nat
  stopSignalCount : Nat
  wcycleStepCount : Nat
deriving DecidableEq, Repr

/-- The fixed collaborators of the algorithm that `populateTaskQueue` consults:
the element call list (`elementCallList_`, each element mapped to the tasks it
registers for a given step) and the combined effect of one pass over
`signallerList_` (each `signaller->signal(step, time)` call updates the shared
step-fact record through the registered callbacks). -/
structure AlgParams where
  elements : List (Int → List SimTask)
  signalRound : Int → SignalHelper → SignalHelper

/-- The tasks registered for one step of the loop body of `populateTaskQueue`:
the pre-step task, then the contribution of every element in call-list order,
then the post-step task. -/
def stepTasks (elements : List (Int → List SimTask)) (s : Int) (isNS : Bool) : List SimTask :=
  SimTask.pre s isNS :: ((elements.map fun e => e s).flatten ++ [SimTask.post s])

/-- The `do { ... } while (step_ != signalHelper_->nextNSStep_ && step_ <= signalHelper_->lastStep_)`
loop of `ModularSimulatorAlgorithm::populateTaskQueue`: register the tasks for the
current step, advance the step counter, run the signallers on the new step, and
repeat while the new step is neither the recorded next neighbor-search step nor
past the recorded last step.  Returns the extended queue, the final step counter
and the final step-fact record. -/
def populateLoop (p : AlgParams) :
    Nat → Int → SignalHelper → List SimTask → Option (List SimTask × Int × SignalHelper)
  | 0, _, _, _ => none
  | fuel + 1, step, sh, acc =>
    if step + 1 ≠ (p.signalRound (step + 1) sh).nextNSStep
        ∧ step + 1 ≤ (p.signalRound (step + 1) sh).lastStep then
      populateLoop p fuel (step + 1) (p.signalRound (step + 1) sh)
        (acc ++ stepTasks p.elements step (decide (step = sh.nextNSStep)))
    else
      some (acc ++ stepTasks p.elements step (decide (step = sh.nextNSStep)), step + 1,
        p.signalRound (step + 1) sh)

/-- `ModularSimulatorAlgorithm::populateTaskQueue`: run an initial signaller pass on
the current step, run the batch loop, set `runFinished_ = (step_ > signalHelper_->lastStep_)`,
and append a teardown task if the run is finished.  (The per-batch helper calls —
checkpoint, PME load balancing, domain decomposition — touch only external
collaborators, never the scheduler state modelled here.) -/
def populateTaskQueue (p : AlgParams) (fuel : Nat) (st : AlgState) : Option AlgState :=
  match populateLoop p fuel st.step (p.signalRound st.step st.signalHelper) st.taskQueue with
  | none => none
  | some (q, s', sh') =>
    some { st with
      taskQueue := if decide (sh'.lastStep < s') then q ++ [SimTask.teardown] else q,
      step := s',
      runFinished := decide (sh'.lastStep < s'),
      signalHelper := sh' }

/-- `ModularSimulatorAlgorithm::updateTaskQueue`: clear the task queue, then re-populate. -/
def updateTaskQueue (p : AlgParams) (fuel : Nat) (st : AlgState) : Option AlgState :=
  populateTaskQueue p fuel { st with taskQueue := [] }

/-- The `taskIterator_++` advance at the head of `getNextTask`, guarded by
`!taskQueue_.empty()`.  The iterator is modelled as a natural-number cursor;
an iterator equal to `taskQueue_.end()` is any cursor at or past the queue
length (after `taskQueue_.clear()` the invalidated iterator can only denote
the end of the now-empty queue, matching the specified "cursor passes the end"). -/
def advanceCursor (st : AlgState) : AlgState :=
  if st.taskQueue.isEmpty then st else { st with taskCursor := st.taskCursor + 1 }

/-- `ModularSimulatorAlgorithm::getNextTask`: advance the cursor; at the end of the
queue either report the terminal value (`nullptr`, modelled as `none`) when the run
is finished or rebuild the queue and reset the cursor; return the task under the
cursor.  The outer `Option` is fuel exhaustion of the rebuild. -/
def getNextTask (p : AlgParams) (fuel : Nat) (st : AlgState) :
    Option (Option SimTask × AlgState) :=
  let st1 := advanceCursor st
  if st1.taskQueue.length ≤ st1.taskCursor then
    if st1.runFinished then
      some (none, st1)
    else
      match updateTaskQueue p fuel st1 with
      | none => none
      | some st2 => some ((st2.taskQueue)[0]?, { st2 with taskCursor := 0 })
  else
    some ((st1.taskQueue)[st1.taskCursor]?, st1)

/-- `n + 1` successive driver calls to `getNextTask`, threading the state. -/
def getNextTaskIter (p : AlgParams) (fuel : Nat) :
    Nat → AlgState → Option (Option SimTask × AlgState)
  | 0, st => getNextTask p fuel st
  | n + 1, st =>
    match getNextTask p fuel st with
    | none => none
    | some (_, st') => getNextTaskIter p fuel n st'

/-- `ModularSimulatorAlgorithm::preStep`: if the stop handler wants to stop after the
current step and this step is not the recorded last step, purge the task queue and
rewind the step counter, then return; otherwise arm the reset and stop signals,
store the step data consumed by the stop handler, and start the per-step wall-clock
counter. -/
def preStep (stoppingAfterCurrentStep : Bool → Bool) (step : Int) (isNS : Bool)
    (st : AlgState) : AlgState :=
  if stoppingAfterCurrentStep isNS ∧ step ≠ st.signalHelper.lastStep then
    { st with taskQueue := [], step := step }
  else
    { st with
      resetSignalCount := st.resetSignalCount + 1,
      stophandlerIsNSStep := isNS,
      stophandlerCurrentStep := step,
      stopSignalCount := st.stopSignalCount + 1,
      wcycleStepCount := st.wcycleStepCount + 1 }

/-! ### Trace of the batch-generation loop

The following definitions reconstruct, step by step, the evolution of the
step-fact record and of the task queue during one run of `populateLoop`:
`shTrace p s sh i` is the step-fact record after the signaller pass on step
`s + i`, `batchBlocks` the tasks accumulated after `n` loop iterations, and
`contCond` the loop's continuation condition after `i` iterations. -/

/-- The step-fact record after `i` further signaller passes, the pass for
iteration `i` being run on step `s + i`.  `shTrace p s sh 0 = sh` is the record
after the initial pass on the start step `s`. -/
def shTrace (p : AlgParams) (s : Int) (sh : SignalHelper) : Nat → SignalHelper
  | 0 => sh
  | i + 1 => p.signalRound (s + (i : Int) + 1) (shTrace p s sh i)

/-- The tasks registered by the first `n` iterations of the batch loop started
at step `s` with step-fact record `sh`. -/
def batchBlocks (p : AlgParams) (s : Int) (sh : SignalHelper) : Nat → List SimTask
  | 0 => []
  | n + 1 =>
    batchBlocks p s sh n ++
      stepTasks p.elements (s + (n : Int))
        (decide (s + (n : Int) = (shTrace p s sh n).nextNSStep))

/-- The loop continuation condition checked after `i` iterations: the advanced
step `s + i` is neither the recorded next neighbor-search step nor past the
recorded last step. -/
def contCond (p : AlgParams) (s : Int) (sh : SignalHelper) (i : Nat) : Prop :=
  s + (i : Int) ≠ (shTrace p s sh i).nextNSStep ∧ s + (i : Int) ≤ (shTrace p s sh i).lastStep

instance (p : AlgParams) (s : Int) (sh : SignalHelper) (i : Nat) :
    Decidable (contCond p s sh i) := by
  unfold contCond; exact inferInstance

theorem shTrace_shift (p : AlgParams) (s : Int) (sh : SignalHelper) (i : Nat) :
    shTrace p s sh (i + 1) = shTrace p (s + 1) (p.signalRound (s + 1) sh) i := by
  induction i with
  | zero => simp [shTrace]
  | succ i ih =>
    show p.signalRound (s + (i + 1 : Int) + 1) (shTrace p s sh (i + 1)) = _
    rw [ih]
    show _ = p.signalRound (s + 1 + (i : Int) + 1) (shTrace p (s + 1) (p.signalRound (s + 1) sh) i)
    congr 1
    ring

theorem batchBlocks_shift (p : AlgParams) (s : Int) (sh : SignalHelper) (n : Nat) :
    batchBlocks p s sh (n + 1) =
      stepTasks p.elements s (decide (s = sh.nextNSStep)) ++
        batchBlocks p (s + 1) (p.signalRound (s + 1) sh) n := by
  induction n with
  | zero => simp [batchBlocks, shTrace]
  | succ n ih =>
    show batchBlocks p s sh (n + 1) ++ _ = _
    rw [ih]
    show _ = _ ++ (batchBlocks p (s + 1) (p.signalRound (s + 1) sh) n ++ _)
    rw [← List.append_assoc]
    congr 1
    · rw [shTrace_shift]
      have h : s + ((n : Int) + 1) = s + 1 + (n : Int) := by ring
      push_cast
      rw [h]

theorem contCond_shift (p : AlgParams) (s : Int) (sh : SignalHelper) (i : Nat) :
    contCond p s sh (i + 1) ↔ contCond p (s + 1) (p.signalRound (s + 1) sh) i := by
  unfold contCond
  rw [shTrace_shift]
  have h : s + ((i : Int) + 1) = s + 1 + (i : Int) := by ring
  push_cast
  rw [h]

/-- Master characterization of a terminating run of the batch loop: it performs
some positive number `n` of iterations, each advancing the step counter by
exactly 1; the final step counter, step-fact record and task queue are the `n`-th
entries of the respective traces; the continuation condition held after every
iteration but the last and fails after the last. -/
theorem populateLoop_some_spec (p : AlgParams) :
    ∀ (fuel : Nat) (s : Int) (sh : SignalHelper) (acc q : List SimTask)
      (s' : Int) (sh' : SignalHelper),
      populateLoop p fuel s sh acc = some (q, s', sh') →
      ∃ n : Nat, 1 ≤ n ∧ n ≤ fuel ∧
        s' = s + (n : Int) ∧
        sh' = shTrace p s sh n ∧
        q = acc ++ batchBlocks p s sh n ∧
        (∀ i : Nat, 1 ≤ i → i < n → contCond p s sh i) ∧
        ¬ contCond p s sh n := by
  intro fuel
  induction fuel with
  | zero =>
    intro s sh acc q s' sh' h
    simp [populateLoop] at h
  | succ fuel ih =>
    intro s sh acc q s' sh' h
    rw [populateLoop] at h
    by_cases hc : s + 1 ≠ (p.signalRound (s + 1) sh).nextNSStep
        ∧ s + 1 ≤ (p.signalRound (s + 1) sh).lastStep
    · rw [if_pos hc] at h
      obtain ⟨n, hn1, hnf, hs', hsh', hq, hmid, hend⟩ := ih _ _ _ _ _ _ h
      refine ⟨n + 1, by omega, by omega, ?_, ?_, ?_, ?_, ?_⟩
      · rw [hs']; push_cast; ring
      · rw [hsh', shTrace_shift]
      · rw [hq, batchBlocks_shift, List.append_assoc]
      · intro i h1 hlt
        match i, h1 with
        | 1, _ =>
          show contCond p s sh 1
          unfold contCond
          simpa [shTrace] using hc
        | (j + 2), _ =>
          rw [show j + 2 = (j + 1) + 1 by omega, contCond_shift]
          exact hmid (j + 1) (by omega) (by omega)
      · rw [contCond_shift]
        exact hend
    · rw [if_neg hc] at h
      simp only [Option.some.injEq, Prod.mk.injEq] at h
      obtain ⟨hq, hs2, hsh2⟩ := h
      refine ⟨1, le_refl 1, by omega, ?_, ?_, ?_, ?_, ?_⟩
      · omega
      · rw [← hsh2]; simp [shTrace]
      · rw [← hq]; simp [batchBlocks, shTrace]
      · intro i h1 hlt; omega
      · unfold contCond
        simpa [shTrace] using hc

/-- Characterization of a terminating `populateTaskQueue` call, inherited from
`populateLoop_some_spec`, with the queue extension, the finished flag and the
untouched fields made explicit. -/
theorem populateTaskQueue_some_spec (p : AlgParams) (fuel : Nat) (st st' : AlgState)
    (h : populateTaskQueue p fuel st = some st') :
    ∃ n : Nat, 1 ≤ n ∧
      st'.step = st.step + (n : Int) ∧
      st'.signalHelper = shTrace p st.step (p.signalRound st.step st.signalHelper) n ∧
      st'.runFinished = decide (st'.signalHelper.lastStep < st'.step) ∧
      st'.taskQueue = st.taskQueue ++
        batchBlocks p st.step (p.signalRound st.step st.signalHelper) n ++
        (if st'.runFinished then [SimTask.teardown] else []) ∧
      (∀ i : Nat, 1 ≤ i → i < n →
        contCond p st.step (p.signalRound st.step st.signalHelper) i) ∧
      ¬ contCond p st.step (p.signalRound st.step st.signalHelper) n ∧
      st'.taskCursor = st.taskCursor ∧
      st'.stophandlerIsNSStep = st.stophandlerIsNSStep ∧
      st'.stophandlerCurrentStep = st.stophandlerCurrentStep ∧
      st'.resetSignalCount = st.resetSignalCount ∧
      st'.stopSignalCount = st.stopSignalCount ∧
      st'.wcycleStepCount = st.wcycleStepCount := by
  unfold populateTaskQueue at h
  cases hl : populateLoop p fuel st.step (p.signalRound st.step st.signalHelper) st.taskQueue with
  | none => rw [hl] at h; simp at h
  | some out =>
    obtain ⟨q, s', sh'⟩ := out
    rw [hl] at h
    simp only [Option.some.injEq] at h
    obtain ⟨n, hn1, _, hs', hsh', hq, hmid, hend⟩ := populateLoop_some_spec p _ _ _ _ _ _ _ hl
    subst h
    refine ⟨n, hn1, by simpa using hs', by simpa using hsh', rfl, ?_, hmid, hend,
      rfl, rfl, rfl, rfl, rfl, rfl⟩
    show (if decide (sh'.lastStep < s') then q ++ [SimTask.teardown] else q) =
      st.taskQueue ++ batchBlocks p st.step (p.signalRound st.step st.signalHelper) n ++
        (if decide (sh'.lastStep < s') then [SimTask.teardown] else [])
    rw [hq]
    by_cases hf : sh'.lastStep < s' <;> simp [hf]

/-- The neighbor-search flags of the `n` scheduled steps of a batch started at
step `s` with step-fact record `sh`: step `s + i` carries the flag
`step == signalHelper_->nextNSStep_` evaluated against the record produced by
the signaller pass on `s + i`. -/
def nsFlags (p : AlgParams) (s : Int) (sh : SignalHelper) (n : Nat) : List Bool :=
  (List.range n).map fun (i : Nat) => decide (s + (i : Int) = (shTrace p s sh i).nextNSStep)

/-- The shape of a task batch covering the contiguous steps `s, s + 1, ...` (one
step per flag): for each step, the pre-step task, the element contributions in
call-list order, and the post-step task. -/
def batchShape (elements : List (Int → List SimTask)) : Int → List Bool → List SimTask
  | _, [] => []
  | s, b :: bs => stepTasks elements s b ++ batchShape elements (s + 1) bs

theorem batchShape_append (elements : List (Int → List SimTask)) (fl1 fl2 : List Bool) :
    ∀ s : Int, batchShape elements s (fl1 ++ fl2) =
      batchShape elements s fl1 ++ batchShape elements (s + (fl1.length : Int)) fl2 := by
  induction fl1 with
  | nil => intro s; simp [batchShape]
  | cons b bs ih =>
    intro s
    simp only [List.cons_append, batchShape, List.length_cons]
    rw [List.append_eq, ih (s + 1), List.append_assoc]
    have h2 : s + ((bs.length + 1 : Nat) : Int) = s + 1 + (bs.length : Int) := by
      push_cast
      ring
    rw [h2]

theorem batchBlocks_eq_batchShape (p : AlgParams) (s : Int) (sh : SignalHelper) (n : Nat) :
    batchBlocks p s sh n = batchShape p.elements s (nsFlags p s sh n) := by
  induction n with
  | zero => simp [batchBlocks, nsFlags, batchShape]
  | succ n ih =>
    rw [batchBlocks, ih]
    have hr : nsFlags p s sh (n + 1) = nsFlags p s sh n ++
        [decide (s + (n : Int) = (shTrace p s sh n).nextNSStep)] := by
      unfold nsFlags
      rw [List.range_succ, List.map_append]
      rfl
    rw [hr, batchShape_append]
    have hlen : (nsFlags p s sh n).length = n := by simp [nsFlags]
    rw [hlen]
    simp [batchShape]

theorem batchBlocks_ne_nil (p : AlgParams) (s : Int) (sh : SignalHelper) (n : Nat)
    (hn : 1 ≤ n) : batchBlocks p s sh n ≠ [] := by
  cases n with
  | zero => omega
  | succ n =>
    rw [batchBlocks]
    simp [stepTasks]

/-- A regenerated task queue is never empty: the loop body always registers at
least a pre-step task before the exit condition is checked. -/
theorem populateTaskQueue_ne_nil (p : AlgParams) (fuel : Nat) (st st' : AlgState)
    (h : populateTaskQueue p fuel st = some st') (hq : st.taskQueue = []) :
    st'.taskQueue ≠ [] := by
  obtain ⟨n, hn1, _, _, _, hqeq, _⟩ := populateTaskQueue_some_spec p fuel st st' h
  rw [hqeq, hq, List.nil_append]
  intro hcontra
  rcases List.append_eq_nil.mp hcontra with ⟨h1, _⟩
  exact batchBlocks_ne_nil p st.step _ n hn1 h1

/-- Claim C1: every batch generated by `populateTaskQueue` (into a cleared queue)
has the shape [pre-step task, the element contributions in call-list order,
post-step task] repeated once per step of a nonempty contiguous step range that
starts at the generation step, and a teardown task is appended as the final
entry if and only if the run is finished — the flag which is set exactly when
the final step counter has exceeded the recorded last step. -/
theorem claim_C1 (p : AlgParams) (fuel : Nat) (st st' : AlgState)
    (h : populateTaskQueue p fuel st = some st') (hq : st.taskQueue = []) :
    ∃ flags : List Bool, flags ≠ [] ∧
      st'.taskQueue = batchShape p.elements st.step flags ++
        (if st'.runFinished then [SimTask.teardown] else []) ∧
      st'.step = st.step + (flags.length : Int) ∧
      (st'.runFinished = true ↔ st'.signalHelper.lastStep < st'.step) := by
  obtain ⟨n, hn1, hstep, _, hfin, hqeq, _⟩ := populateTaskQueue_some_spec p fuel st st' h
  refine ⟨nsFlags p st.step (p.signalRound st.step st.signalHelper) n, ?_, ?_, ?_, ?_⟩
  · have : (nsFlags p st.step (p.signalRound st.step st.signalHelper) n).length = n := by
      simp [nsFlags]
    intro hcontra
    rw [hcontra] at this
    simp at this
    omega
  · rw [hqeq, hq, List.nil_append, batchBlocks_eq_batchShape]
  · have hlen : (nsFlags p st.step (p.signalRound st.step st.signalHelper) n).length = n := by
      simp [nsFlags]
    rw [hstep, hlen]
  · rw [hfin]
    simp

/-! ### Concrete fixtures used by the witnesses -/

/-- A concrete algorithm configuration: one element contributing one task per
step, and signallers that keep a constant step-fact record (last step 1, next
neighbor-search step 99). -/
def sampleParams : AlgParams :=
  { elements := [fun _ => [SimTask.contrib 7 0]],
    signalRound := fun _ sh => sh }

/-- A concrete initial algorithm state at step 0 with an empty task queue. -/
def sampleState : AlgState :=
  { taskQueue := [], taskCursor := 0, step := 0, runFinished := false,
    signalHelper := { lastStep := 1, nextNSStep := 99 },
    stophandlerIsNSStep := false, stophandlerCurrentStep := 0,
    resetSignalCount := 0, stopSignalCount := 0, wcycleStepCount := 0 }

/-- The state reached by generating one batch from `sampleState`: steps 0 and 1
are scheduled, the run is finished, and the teardown task ends the queue. -/
def sampleResult : AlgState :=
  { taskQueue := [SimTask.pre 0 false, SimTask.contrib 7 0, SimTask.post 0,
      SimTask.pre 1 false, SimTask.contrib 7 0, SimTask.post 1, SimTask.teardown],
    taskCursor := 0, step := 2, runFinished := true,
    signalHelper := { lastStep := 1, nextNSStep := 99 },
    stophandlerIsNSStep := false, stophandlerCurrentStep := 0,
    resetSignalCount := 0, stopSignalCount := 0, wcycleStepCount := 0 }

theorem claim_C1_witness :
    populateTaskQueue sampleParams 10 sampleState = some sampleResult ∧
    sampleState.taskQueue = [] ∧
    (∃ flags : List Bool, flags ≠ [] ∧
      sampleResult.taskQueue = batchShape sampleParams.elements sampleState.step flags ++
        (if sampleResult.runFinished then [SimTask.teardown] else []) ∧
      sampleResult.step = sampleState.step + (flags.length : Int) ∧
      (sampleResult.runFinished = true ↔
        sampleResult.signalHelper.lastStep < sampleResult.step)) :=
  ⟨by decide, by decide,
    claim_C1 sampleParams 10 sampleState sampleResult (by decide) (by decide)⟩

/-- Claim C4: within one run of batch generation the step counter increases by
exactly 1 per loop iteration — after `n` iterations it has increased by exactly
`n`, one per scheduled step of the batch — and the loop repeats exactly while
the newly advanced step is neither the recorded next neighbor-search step nor
greater than the recorded last step (the continuation condition holds after
every iteration but the last and fails after the last); immediately after a
rewind taken by `preStep`, the step counter instead equals the step at which
the termination request was detected. -/
theorem claim_C4 (p : AlgParams) (fuel : Nat) (st st' : AlgState)
    (h : populateTaskQueue p fuel st = some st') :
    (∃ n : Nat, 1 ≤ n ∧
      st'.step = st.step + (n : Int) ∧
      (nsFlags p st.step (p.signalRound st.step st.signalHelper) n).length = n ∧
      st'.taskQueue = st.taskQueue ++
        batchShape p.elements st.step (nsFlags p st.step (p.signalRound st.step st.signalHelper) n) ++
        (if st'.runFinished then [SimTask.teardown] else []) ∧
      (∀ i : Nat, 1 ≤ i → i < n →
        contCond p st.step (p.signalRound st.step st.signalHelper) i) ∧
      ¬ contCond p st.step (p.signalRound st.step st.signalHelper) n) ∧
    (∀ (stop : Bool → Bool) (s0 : Int) (b : Bool) (stR : AlgState),
      stop b = true → s0 ≠ stR.signalHelper.lastStep →
        (preStep stop s0 b stR).step = s0) := by
  constructor
  · obtain ⟨n, hn1, hstep, _, _, hqeq, hmid, hend, _⟩ :=
      populateTaskQueue_some_spec p fuel st st' h
    refine ⟨n, hn1, hstep, by simp [nsFlags], ?_, hmid, hend⟩
    rw [hqeq, batchBlocks_eq_batchShape]
  · intro stop s0 b stR hstop hne
    unfold preStep
    rw [if_pos ⟨by simp [hstop], hne⟩]

theorem claim_C4_witness :
    populateTaskQueue sampleParams 10 sampleState = some sampleResult ∧
    ((∃ n : Nat, 1 ≤ n ∧
      sampleResult.step = sampleState.step + (n : Int) ∧
      (nsFlags sampleParams sampleState.step
        (sampleParams.signalRound sampleState.step sampleState.signalHelper) n).length = n ∧
      sampleResult.taskQueue = sampleState.taskQueue ++
        batchShape sampleParams.elements sampleState.step
          (nsFlags sampleParams sampleState.step
            (sampleParams.signalRound sampleState.step sampleState.signalHelper) n) ++
        (if sampleResult.runFinished then [SimTask.teardown] else []) ∧
      (∀ i : Nat, 1 ≤ i → i < n →
        contCond sampleParams sampleState.step
          (sampleParams.signalRound sampleState.step sampleState.signalHelper) i) ∧
      ¬ contCond sampleParams sampleState.step
          (sampleParams.signalRound sampleState.step sampleState.signalHelper) n) ∧
    (∀ (stop : Bool → Bool) (s0 : Int) (b : Bool) (stR : AlgState),
      stop b = true → s0 ≠ stR.signalHelper.lastStep →
        (preStep stop s0 b stR).step = s0)) :=
  ⟨by decide, claim_C4 sampleParams 10 sampleState sampleResult (by decide)⟩

/-! ### getNextTask: terminal behavior -/

@[simp] theorem advanceCursor_taskQueue (st : AlgState) :
    (advanceCursor st).taskQueue = st.taskQueue := by
  unfold advanceCursor
  split <;> rfl

@[simp] theorem advanceCursor_runFinished (st : AlgState) :
    (advanceCursor st).runFinished = st.runFinished := by
  unfold advanceCursor
  split <;> rfl

theorem advanceCursor_taskCursor_ge (st : AlgState) :
    st.taskCursor ≤ (advanceCursor st).taskCursor := by
  unfold advanceCursor
  split <;> simp

/-- From a finished state whose cursor is at or past the end of the queue,
`getNextTask` returns the terminal value and re-establishes the same situation. -/
theorem getNextTask_terminal (p : AlgParams) (fuel : Nat) (st : AlgState)
    (hfin : st.runFinished = true) (hcur : st.taskQueue.length ≤ st.taskCursor) :
    getNextTask p fuel st = some (none, advanceCursor st) ∧
    (advanceCursor st).runFinished = true ∧
    (advanceCursor st).taskQueue.length ≤ (advanceCursor st).taskCursor := by
  have hcur' : (advanceCursor st).taskQueue.length ≤ (advanceCursor st).taskCursor := by
    rw [advanceCursor_taskQueue]
    exact le_trans hcur (advanceCursor_taskCursor_ge st)
  refine ⟨?_, by rw [advanceCursor_runFinished, hfin], hcur'⟩
  unfold getNextTask
  simp only [if_pos hcur', advanceCursor_runFinished, hfin]
  simp

/-- Termination is sticky: from a finished, exhausted state every further
driver call returns the terminal value. -/
theorem getNextTaskIter_terminal (p : AlgParams) (fuel : Nat) :
    ∀ (k : Nat) (st : AlgState), st.runFinished = true →
      st.taskQueue.length ≤ st.taskCursor →
      ∃ st'' : AlgState, getNextTaskIter p fuel k st = some (none, st'') := by
  intro k
  induction k with
  | zero =>
    intro st hfin hcur
    exact ⟨advanceCursor st, (getNextTask_terminal p fuel st hfin hcur).1⟩
  | succ k ih =>
    intro st hfin hcur
    obtain ⟨hcall, hfin', hcur'⟩ := getNextTask_terminal p fuel st hfin hcur
    rw [getNextTaskIter, hcall]
    exact ih (advanceCursor st) hfin' hcur'

/-- Claim C2: `getNextTask` returns the terminal value exactly when the advanced
cursor is past the end of the current batch and the run is marked finished; in
every other exhausted-batch case it discards the old batch (the rebuild starts
from a cleared queue), builds a new one, resets the cursor to its start and
returns the new batch's first task; and after a call has returned the terminal
value every subsequent call also returns the terminal value. -/
theorem claim_C2 (p : AlgParams) (fuel : Nat) (st : AlgState)
    (r : Option SimTask) (st' : AlgState)
    (h : getNextTask p fuel st = some (r, st')) :
    (r = none ↔
      st.runFinished = true ∧ st.taskQueue.length ≤ (advanceCursor st).taskCursor) ∧
    (r = none → ∀ k : Nat, ∃ st'' : AlgState,
      getNextTaskIter p fuel k st' = some (none, st'')) ∧
    (st.taskQueue.length ≤ (advanceCursor st).taskCursor → st.runFinished = false →
      ∃ st2 : AlgState, updateTaskQueue p fuel (advanceCursor st) = some st2 ∧
        st' = { st2 with taskCursor := 0 } ∧ st'.taskCursor = 0 ∧
        r = (st'.taskQueue)[0]? ∧ ∃ t : SimTask, r = some t) := by
  unfold getNextTask at h
  simp only [advanceCursor_taskQueue, advanceCursor_runFinished] at h
  by_cases hend : st.taskQueue.length ≤ (advanceCursor st).taskCursor
  · rw [if_pos hend] at h
    by_cases hfin : st.runFinished = true
    · rw [if_pos hfin] at h
      simp only [Option.some.injEq, Prod.mk.injEq] at h
      obtain ⟨hr, hst'⟩ := h
      refine ⟨by simp [← hr, hfin, hend], ?_, ?_⟩
      · intro _ k
        refine getNextTaskIter_terminal p fuel k st' ?_ ?_
        · rw [← hst', advanceCursor_runFinished, hfin]
        · rw [← hst', advanceCursor_taskQueue]
          exact hend
      · intro _ hfinF
        rw [hfinF] at hfin
        simp at hfin
    · rw [if_neg hfin] at h
      cases hu : updateTaskQueue p fuel (advanceCursor st) with
      | none => rw [hu] at h; simp at h
      | some st2 =>
        rw [hu] at h
        simp only [Option.some.injEq, Prod.mk.injEq] at h
        obtain ⟨hr, hst'⟩ := h
        subst hst'
        have hne : st2.taskQueue ≠ [] :=
          populateTaskQueue_ne_nil p fuel _ st2 hu rfl
        have hsome : ∃ t : SimTask, r = some t := by
          rw [← hr]
          cases hq2 : st2.taskQueue with
          | nil => exact absurd hq2 hne
          | cons a l => exact ⟨a, by simp⟩
        refine ⟨?_, ?_, ?_⟩
        · constructor
          · intro hrn
            obtain ⟨t, ht⟩ := hsome
            rw [ht] at hrn
            exact absurd hrn (by simp)
          · intro ⟨hf, _⟩
            exact absurd hf hfin
        · intro hrn
          obtain ⟨t, ht⟩ := hsome
          rw [ht] at hrn
          exact absurd hrn (by simp)
        · intro _ _
          exact ⟨st2, rfl, rfl, rfl, hr.symm, hsome⟩
  · rw [if_neg hend] at h
    simp only [Option.some.injEq, Prod.mk.injEq] at h
    obtain ⟨hr, hst'⟩ := h
    have hlt : (advanceCursor st).taskCursor < st.taskQueue.length := by omega
    have hsome : ∃ t : SimTask, r = some t := by
      rw [← hr]
      exact ⟨st.taskQueue[(advanceCursor st).taskCursor],
        List.getElem?_eq_getElem hlt⟩
    refine ⟨?_, ?_, ?_⟩
    · constructor
      · intro hrn
        obtain ⟨t, ht⟩ := hsome
        rw [ht] at hrn
        exact absurd hrn (by simp)
      · intro ⟨_, hf⟩
        exact absurd hf hend
    · intro hrn
      obtain ⟨t, ht⟩ := hsome
      rw [ht] at hrn
      exact absurd hrn (by simp)
    · intro hf
      exact absurd hf hend

/-- A concrete finished state: its queue, ending in the teardown task, has been
fully consumed (the cursor rests on the last entry) and the run is finished. -/
def finishedState : AlgState :=
  { taskQueue := [SimTask.teardown], taskCursor := 0, step := 2, runFinished := true,
    signalHelper := { lastStep := 1, nextNSStep := 99 },
    stophandlerIsNSStep := false, stophandlerCurrentStep := 0,
    resetSignalCount := 0, stopSignalCount := 0, wcycleStepCount := 0 }

/-- `finishedState` after the terminal `getNextTask` call advanced the cursor. -/
def finishedStateAfter : AlgState :=
  { finishedState with taskCursor := 1 }

theorem claim_C2_witness :
    getNextTask sampleParams 5 finishedState = some (none, finishedStateAfter) ∧
    (((none : Option SimTask) = none ↔
      finishedState.runFinished = true ∧
      finishedState.taskQueue.length ≤ (advanceCursor finishedState).taskCursor) ∧
    ((none : Option SimTask) = none → ∀ k : Nat, ∃ st'' : AlgState,
      getNextTaskIter sampleParams 5 k finishedStateAfter = some (none, st'')) ∧
    (finishedState.taskQueue.length ≤ (advanceCursor finishedState).taskCursor →
      finishedState.runFinished = false →
      ∃ st2 : AlgState,
        updateTaskQueue sampleParams 5 (advanceCursor finishedState) = some st2 ∧
        finishedStateAfter = { st2 with taskCursor := 0 } ∧
        finishedStateAfter.taskCursor = 0 ∧
        (none : Option SimTask) = (finishedStateAfter.taskQueue)[0]? ∧
        ∃ t : SimTask, (none : Option SimTask) = some t)) :=
  ⟨by decide, claim_C2 sampleParams 5 finishedState none finishedStateAfter (by decide)⟩

/-! ### The stop-request scenario -/

/-- Modelled from the spec: the signaller pass of a configuration whose
last-step signaller consults the stop monitor (the signaller implementations
live in signallers.cpp, which is not among the given sources; only their
callbacks into the shared step-fact record are).  While a stop request is
pending, the last-step signaller reports the signalled step as the last step, so
the recorded last step is forced down to the step at which the stop was
detected and no later step remains scheduled; without a stop request it reports
the configured final step when that step is signalled.  The neighbor-search
signaller's update of the recorded next neighbor-search step is kept abstract
(`nsf`). -/
def stopAwareSignalRound (stopping : Bool) (stopStep : Int) (nsf : Int → Int → Int)
    (t : Int) (sh : SignalHelper) : SignalHelper :=
  { lastStep :=
      if stopping then min sh.lastStep t
      else if t = stopStep then t else sh.lastStep,
    nextNSStep := nsf t sh.nextNSStep }

/-- Claim C3: when the pre-step task for step `s` runs while the stop monitor
reports "stop after this step" and `s` is not the recorded last step, the whole
task queue is cleared and the step counter is rewound to `s` with no
advancement; the next regenerated batch then covers exactly step `s` — its
queue is the single block for step `s` followed by the teardown task — with the
last step forced to `s` by the initial signaller pass of the regeneration. -/
theorem claim_C3 (el : List (Int → List SimTask)) (stopStep : Int) (nsf : Int → Int → Int)
    (st : AlgState) (s : Int) (isNS : Bool) (fuel : Nat)
    (hne : s ≠ st.signalHelper.lastStep) (hle : s ≤ st.signalHelper.lastStep)
    (hfuel : 1 ≤ fuel) :
    preStep (fun _ => true) s isNS st = { st with taskQueue := [], step := s } ∧
    ∃ st2 : AlgState,
      updateTaskQueue { elements := el, signalRound := stopAwareSignalRound true stopStep nsf }
        fuel (preStep (fun _ => true) s isNS st) = some st2 ∧
      st2.taskQueue =
        stepTasks el s (decide (s = nsf s st.signalHelper.nextNSStep)) ++ [SimTask.teardown] ∧
      st2.step = s + 1 ∧
      st2.runFinished = true ∧
      st2.signalHelper.lastStep = s := by
  have hpre : preStep (fun _ => true) s isNS st = { st with taskQueue := [], step := s } := by
    unfold preStep
    rw [if_pos ⟨by simp, hne⟩]
  refine ⟨hpre, ?_⟩
  rw [hpre]
  unfold updateTaskQueue populateTaskQueue
  obtain ⟨fuel', rfl⟩ : ∃ fuel' : Nat, fuel = fuel' + 1 :=
    ⟨fuel - 1, by omega⟩
  have hsh0 : stopAwareSignalRound true stopStep nsf s st.signalHelper =
      { lastStep := s, nextNSStep := nsf s st.signalHelper.nextNSStep } := by
    unfold stopAwareSignalRound
    simp [min_eq_right hle]
  rw [populateLoop]
  simp only [hsh0]
  have hsh1 : stopAwareSignalRound true stopStep nsf (s + 1)
      { lastStep := s, nextNSStep := nsf s st.signalHelper.nextNSStep } =
      { lastStep := s, nextNSStep := nsf (s + 1) (nsf s st.signalHelper.nextNSStep) } := by
    unfold stopAwareSignalRound
    simp only [if_pos rfl, SignalHelper.mk.injEq]
    exact ⟨min_eq_left (by omega), trivial⟩
  rw [hsh1]
  have hcond : ¬ (s + 1 ≠
      ({ lastStep := s, nextNSStep := nsf (s + 1) (nsf s st.signalHelper.nextNSStep) } :
        SignalHelper).nextNSStep ∧
      s + 1 ≤ ({ lastStep := s, nextNSStep := nsf (s + 1) (nsf s st.signalHelper.nextNSStep) } :
        SignalHelper).lastStep) := by
    intro ⟨_, hcontra⟩
    have h2 : s + 1 ≤ s := hcontra
    omega
  rw [if_neg hcond]
  refine ⟨_, rfl, ?_, rfl, ?_, rfl⟩
  · split
    · simp
    · next hfalse =>
      refine absurd ?_ hfalse
      show decide (s < s + 1) = true
      simp only [decide_eq_true_eq]
      omega
  · show decide (s < s + 1) = true
    simp only [decide_eq_true_eq]
    omega

/-- A concrete element call list: one element contributing one task per step. -/
def sampleElements : List (Int → List SimTask) :=
  [fun _ => [SimTask.contrib 7 0]]

/-- A concrete neighbor-search update: every even step is a neighbor-search step. -/
def sampleNsf : Int → Int → Int :=
  fun t old => if t % 2 = 0 then t else old

/-- A concrete state in which the batch covering steps 3 and 4 (the final batch,
last step 4) has been generated and its pre-step task for step 3 is about to run. -/
def batch34State : AlgState :=
  { taskQueue := [SimTask.pre 3 false, SimTask.contrib 7 0, SimTask.post 3,
      SimTask.pre 4 true, SimTask.contrib 7 0, SimTask.post 4, SimTask.teardown],
    taskCursor := 0, step := 5, runFinished := true,
    signalHelper := { lastStep := 4, nextNSStep := 4 },
    stophandlerIsNSStep := false, stophandlerCurrentStep := 2,
    resetSignalCount := 3, stopSignalCount := 3, wcycleStepCount := 3 }

theorem claim_C3_witness :
    (3 : Int) ≠ batch34State.signalHelper.lastStep ∧
    (3 : Int) ≤ batch34State.signalHelper.lastStep ∧
    (1 : Nat) ≤ 5 ∧
    (preStep (fun _ => true) 3 false batch34State =
        { batch34State with taskQueue := [], step := 3 } ∧
      ∃ st2 : AlgState,
        updateTaskQueue
            { elements := sampleElements, signalRound := stopAwareSignalRound true 5 sampleNsf }
            5 (preStep (fun _ => true) 3 false batch34State) = some st2 ∧
        st2.taskQueue = stepTasks sampleElements 3
            (decide ((3 : Int) = sampleNsf 3 batch34State.signalHelper.nextNSStep)) ++
          [SimTask.teardown] ∧
        st2.step = 3 + 1 ∧
        st2.runFinished = true ∧
        st2.signalHelper.lastStep = 3) :=
  ⟨by decide, by decide, by decide,
    claim_C3 sampleElements 5 sampleNsf batch34State 3 false 5
      (by decide) (by decide) (by decide)⟩

/-- Claim C9: when `preStep` takes the discard-and-rewind branch (the stop
monitor reports stopping and the step is not the recorded last step), it
returns right after clearing the task queue and rewinding the step counter:
the reset and stop signals are not armed, the step fields consumed by the stop
handler are not updated, the per-step wall-clock counter is not started, and no
other scheduler state changes. -/
theorem claim_C9 (stop : Bool → Bool) (s : Int) (isNS : Bool) (st : AlgState)
    (hstop : stop isNS = true) (hne : s ≠ st.signalHelper.lastStep) :
    (preStep stop s isNS st).taskQueue = [] ∧
    (preStep stop s isNS st).step = s ∧
    (preStep stop s isNS st).taskCursor = st.taskCursor ∧
    (preStep stop s isNS st).runFinished = st.runFinished ∧
    (preStep stop s isNS st).signalHelper = st.signalHelper ∧
    (preStep stop s isNS st).stophandlerIsNSStep = st.stophandlerIsNSStep ∧
    (preStep stop s isNS st).stophandlerCurrentStep = st.stophandlerCurrentStep ∧
    (preStep stop s isNS st).resetSignalCount = st.resetSignalCount ∧
    (preStep stop s isNS st).stopSignalCount = st.stopSignalCount ∧
    (preStep stop s isNS st).wcycleStepCount = st.wcycleStepCount := by
  unfold preStep
  rw [if_pos ⟨by simp [hstop], hne⟩]
  exact ⟨rfl, rfl, rfl, rfl, rfl, rfl, rfl, rfl, rfl, rfl⟩

theorem claim_C9_witness :
    (fun (_ : Bool) => true) false = true ∧
    (3 : Int) ≠ batch34State.signalHelper.lastStep ∧
    ((preStep (fun _ => true) 3 false batch34State).taskQueue = [] ∧
      (preStep (fun _ => true) 3 false batch34State).step = 3 ∧
      (preStep (fun _ => true) 3 false batch34State).taskCursor = batch34State.taskCursor ∧
      (preStep (fun _ => true) 3 false batch34State).runFinished = batch34State.runFinished ∧
      (preStep (fun _ => true) 3 false batch34State).signalHelper = batch34State.signalHelper ∧
      (preStep (fun _ => true) 3 false batch34State).stophandlerIsNSStep =
        batch34State.stophandlerIsNSStep ∧
      (preStep (fun _ => true) 3 false batch34State).stophandlerCurrentStep =
        batch34State.stophandlerCurrentStep ∧
      (preStep (fun _ => true) 3 false batch34State).resetSignalCount =
        batch34State.resetSignalCount ∧
      (preStep (fun _ => true) 3 false batch34State).stopSignalCount =
        batch34State.stopSignalCount ∧
      (preStep (fun _ => true) 3 false batch34State).wcycleStepCount =
        batch34State.wcycleStepCount) :=
  ⟨by decide, by decide,
    claim_C9 (fun _ => true) 3 false batch34State (by decide) (by decide)⟩

/-! ### The builder (`ModularSimulatorAlgorithmBuilder`) -/

/-- The two build-time failures: `SimulationAlgorithmSetupError` thrown on a
second `build` call, and the assembly failure reported during element setup when
a controller's deferred registration never found a matching connection. -/
inductive BuildError where
  | setupError
  | incompleteSetup
deriving DecidableEq, Repr

/-- The parts of the built `ModularSimulatorAlgorithm` whose assembly the claims
are about, with stages identified by numeric ids: the signaller call list
(`signallerList_`), the element ownership list (`elementsOwnershipList_`) and the
element call list (`elementCallList_`). -/
structure BuiltAlgorithm where
  signallerList : List Nat
  elementsOwnershipList : List Nat
  elementCallList : List Nat
deriving DecidableEq, Repr

/-- The builder's accumulated state: the one-shot flag (`algorithmHasBeenBuilt_`),
the deferred thermostat/barostat registration functions and the submitted
connection records (a registration function is modelled by the predicate telling
which connection records it matches), the signallers handed to `addSignaller` in
build order, and the collected elements (`elements_`) with their call list
(`callList_`), the checkpoint helper, the optional free-energy element and the
trajectory element. -/
structure BuilderState where
  algorithmHasBeenBuilt : Bool
  thermostatRegistrationFunctions : List (Nat → Bool)
  propagatorThermostatConnections : List Nat
  barostatRegistrationFunctions : List (Nat → Bool)
  propagatorBarostatConnections : List Nat
  signallerBuildOrder : List Nat
  checkpointHelper : Nat
  trajectoryElement : Nat
  freeEnergyPerturbationElement : Option Nat
  elements : List Nat
  callList : List Nat

/-- The nested registration loops of `build`: every registration function is
applied to every submitted connection record; a controller ends up connected
exactly when some record matches it. -/
def wireControllers (regs : List (Nat → Bool)) (conns : List Nat) : List Bool :=
  regs.map fun r => conns.any r

/-- Modelled from the spec: whether every controller's deferred registration
found a matching connection description.  The check itself lives in the
controller elements' setup (e.g. velocityscalingtemperaturecoupling.cpp, not
among the given sources), which `build` runs through `algorithm.setup()` before
returning, so an unmatched registration is reported before any step runs. -/
def allControllersConnected (b : BuilderState) : Bool :=
  (wireControllers b.thermostatRegistrationFunctions b.propagatorThermostatConnections).all
      (fun x => x) &&
    (wireControllers b.barostatRegistrationFunctions b.propagatorBarostatConnections).all
      (fun x => x)

/-- The `addSignaller` lambda of `build`, applied to the signallers in build
order: each newly built signaller is emplaced at the beginning of the signaller
list. -/
def buildSignallerList (buildOrder : List Nat) : List Nat :=
  buildOrder.foldl (fun list s => s :: list) []

/-- The observable call order of one notification round over a signaller list:
the `for (auto& signaller : signallerList_)` loop visits the list front to back. -/
def notifyTrace (signallerList : List Nat) : List Nat :=
  signallerList.foldl (fun tr s => tr ++ [s]) []

/-- `ModularSimulatorAlgorithmBuilder::build`: fail if an algorithm was already
built, else set the one-shot flag, apply every registration function to every
connection record, assemble the signaller call list (reverse of build order via
front insertion) and the element lists (call list: checkpoint helper first, then
the free-energy element if present, then the builder's call list, then the
trajectory element; ownership list: the same without the externally owned
checkpoint helper), and run setup — which rejects the build if some controller
was never connected.  The returned builder state models the builder's fields
after the call. -/
def build (b : BuilderState) : Except BuildError BuiltAlgorithm × BuilderState :=
  if b.algorithmHasBeenBuilt then
    (Except.error BuildError.setupError, b)
  else
    let b' := { b with algorithmHasBeenBuilt := true }
    let alg : BuiltAlgorithm :=
      { signallerList := buildSignallerList b.signallerBuildOrder,
        elementsOwnershipList :=
          b.freeEnergyPerturbationElement.toList ++ b.elements ++ [b.trajectoryElement],
        elementCallList :=
          b.checkpointHelper ::
            (b.freeEnergyPerturbationElement.toList ++ b.callList ++ [b.trajectoryElement]) }
    if allControllersConnected b then (Except.ok alg, b')
    else (Except.error BuildError.incompleteSetup, b')

/-- The trace of `elementTeardown` calls made by `ModularSimulatorAlgorithm::teardown`:
the `for (auto& element : elementsOwnershipList_)` loop visits the ownership list
front to back. -/
def teardownCallOrder (alg : BuiltAlgorithm) : List Nat :=
  alg.elementsOwnershipList.foldl (fun tr e => tr ++ [e]) []

theorem foldl_cons_reverse (l : List Nat) :
    ∀ acc : List Nat, l.foldl (fun list s => s :: list) acc = l.reverse ++ acc := by
  induction l with
  | nil => intro acc; simp
  | cons a l ih =>
    intro acc
    rw [List.foldl_cons, ih (a :: acc), List.reverse_cons, List.append_assoc]
    rfl

theorem foldl_append_singleton (l : List Nat) :
    ∀ acc : List Nat, l.foldl (fun tr e => tr ++ [e]) acc = acc ++ l := by
  induction l with
  | nil => intro acc; simp
  | cons a l ih =>
    intro acc
    rw [List.foldl_cons, ih (acc ++ [a]), List.append_assoc]
    rfl

/-- Claim C5: the builder builds at most one algorithm.  With the one-shot flag
set, `build` fails with the setup error and leaves the builder state untouched;
after a successful build the flag is set, so a second call fails with the setup
error and changes nothing — the algorithm value returned by the first build is
outside the builder state and is not touched at all. -/
theorem claim_C5 (b : BuilderState) :
    (b.algorithmHasBeenBuilt = true →
      build b = (Except.error BuildError.setupError, b)) ∧
    (∀ (alg : BuiltAlgorithm) (b2 : BuilderState), build b = (Except.ok alg, b2) →
      b2.algorithmHasBeenBuilt = true ∧
      build b2 = (Except.error BuildError.setupError, b2)) := by
  constructor
  · intro hflag
    unfold build
    rw [if_pos hflag]
  · intro alg b2 h
    unfold build at h
    by_cases hflag : b.algorithmHasBeenBuilt = true
    · rw [if_pos hflag] at h
      simp at h
    · rw [if_neg hflag] at h
      by_cases hconn : allControllersConnected b = true
      · rw [if_pos hconn] at h
        simp only [Prod.mk.injEq, Except.ok.injEq] at h
        obtain ⟨_, hb2⟩ := h
        have hflag2 : b2.algorithmHasBeenBuilt = true := by rw [← hb2]
        refine ⟨hflag2, ?_⟩
        unfold build
        rw [if_pos hflag2]
      · rw [if_neg hconn] at h
        simp at h

/-- The result of building `builderA`. -/
def builderA : BuilderState :=
  { algorithmHasBeenBuilt := false,
    thermostatRegistrationFunctions := [fun c => decide (c = 1)],
    propagatorThermostatConnections := [1],
    barostatRegistrationFunctions := [],
    propagatorBarostatConnections := [],
    signallerBuildOrder := [1, 2, 3],
    checkpointHelper := 0,
    trajectoryElement := 9,
    freeEnergyPerturbationElement := none,
    elements := [5],
    callList := [5] }

/-- `builderA` after its successful build: only the one-shot flag changed. -/
def builderASpent : BuilderState :=
  { builderA with algorithmHasBeenBuilt := true }

/-- The algorithm assembled from `builderA`. -/
def algA : BuiltAlgorithm :=
  { signallerList := [3, 2, 1],
    elementsOwnershipList := [5, 9],
    elementCallList := [0, 5, 9] }

theorem claim_C5_witness :
    build builderA = (Except.ok algA, builderASpent) ∧
    (builderASpent.algorithmHasBeenBuilt = true ∧
      build builderASpent = (Except.error BuildError.setupError, builderASpent)) :=
  ⟨rfl, (claim_C5 builderA).2 algA builderASpent rfl⟩

/-- Claim C6: the signaller call list produced by `build` is the reverse of the
order in which the signallers were built, since `addSignaller` inserts each
newly built signaller at the front of the list; one notification round over the
built list therefore calls the signallers in reverse build order (building
[A, B, C] gives the observable call order [C, B, A]). -/
theorem claim_C6 (b : BuilderState) (alg : BuiltAlgorithm) (b2 : BuilderState)
    (h : build b = (Except.ok alg, b2)) :
    alg.signallerList = b.signallerBuildOrder.reverse ∧
    notifyTrace alg.signallerList = b.signallerBuildOrder.reverse := by
  have hsig : alg.signallerList = buildSignallerList b.signallerBuildOrder := by
    unfold build at h
    by_cases hflag : b.algorithmHasBeenBuilt = true
    · rw [if_pos hflag] at h; simp at h
    · rw [if_neg hflag] at h
      by_cases hconn : allControllersConnected b = true
      · rw [if_pos hconn] at h
        simp only [Prod.mk.injEq, Except.ok.injEq] at h
        rw [← h.1]
      · rw [if_neg hconn] at h; simp at h
  have hrev : buildSignallerList b.signallerBuildOrder = b.signallerBuildOrder.reverse := by
    unfold buildSignallerList
    rw [foldl_cons_reverse, List.append_nil]
  refine ⟨by rw [hsig, hrev], ?_⟩
  unfold notifyTrace
  rw [foldl_append_singleton, List.nil_append, hsig, hrev]

theorem claim_C6_witness :
    build builderA = (Except.ok algA, builderASpent) ∧
    (algA.signallerList = builderA.signallerBuildOrder.reverse ∧
      notifyTrace algA.signallerList = builderA.signallerBuildOrder.reverse) :=
  ⟨rfl, claim_C6 builderA algA builderASpent rfl⟩

/-- Claim C7: if some controller's deferred registration function matches none
of the submitted connection records (for instance a thermostat registration with
no propagator-thermostat connection), `build` reports an assembly error before
any step can run — it returns the incomplete-setup error instead of an
algorithm — and the build is rejected. -/
theorem claim_C7 (b : BuilderState) (r : Nat → Bool)
    (hflag : b.algorithmHasBeenBuilt = false)
    (hcase :
      (r ∈ b.thermostatRegistrationFunctions ∧
        b.propagatorThermostatConnections.any r = false) ∨
      (r ∈ b.barostatRegistrationFunctions ∧
        b.propagatorBarostatConnections.any r = false)) :
    (build b).1 = Except.error BuildError.incompleteSetup ∧
    (build b).2.algorithmHasBeenBuilt = true := by
  have hconn : allControllersConnected b = false := by
    rcases hcase with ⟨hmem, hnomatch⟩ | ⟨hmem, hnomatch⟩
    · have h1 : (wireControllers b.thermostatRegistrationFunctions
          b.propagatorThermostatConnections).all (fun x => x) = false := by
        rw [Bool.eq_false_iff]
        intro hall
        rw [List.all_eq_true] at hall
        have := hall (b.propagatorThermostatConnections.any r)
          (List.mem_map_of_mem _ hmem)
        rw [hnomatch] at this
        exact absurd this (by simp)
      unfold allControllersConnected
      rw [h1, Bool.false_and]
    · have h1 : (wireControllers b.barostatRegistrationFunctions
          b.propagatorBarostatConnections).all (fun x => x) = false := by
        rw [Bool.eq_false_iff]
        intro hall
        rw [List.all_eq_true] at hall
        have := hall (b.propagatorBarostatConnections.any r)
          (List.mem_map_of_mem _ hmem)
        rw [hnomatch] at this
        exact absurd this (by simp)
      unfold allControllersConnected
      rw [h1, Bool.and_false]
  unfold build
  rw [if_neg (by rw [hflag]; simp), if_neg (by rw [hconn]; simp)]
  exact ⟨rfl, rfl⟩

/-- A builder whose only thermostat registration matches no submitted connection. -/
def builderB : BuilderState :=
  { builderA with
    thermostatRegistrationFunctions := [fun c => decide (c = 2)],
    propagatorThermostatConnections := [1] }

theorem claim_C7_witness :
    builderB.algorithmHasBeenBuilt = false ∧
    ((fun c => decide (c = 2)) ∈ builderB.thermostatRegistrationFunctions ∧
      builderB.propagatorThermostatConnections.any (fun c => decide (c = 2)) = false) ∧
    ((build builderB).1 = Except.error BuildError.incompleteSetup ∧
      (build builderB).2.algorithmHasBeenBuilt = true) :=
  ⟨rfl, ⟨List.mem_cons_self _ _, rfl⟩,
    claim_C7 builderB (fun c => decide (c = 2)) rfl
      (Or.inl ⟨List.mem_cons_self _ _, rfl⟩)⟩

/-- Claim C8: each owned element receives exactly one teardown call, issued at
run end — the teardown task is the final entry of the finished batch — and the
elements are torn down in call-list order: the teardown trace equals the element
call list restricted to the owned elements.  (The builder's templated `add`
lives in the header, which is not among the given sources; per the spec it
appends each collected element to both the ownership list and the call list, so
the builder's two lists coincide — hypothesis `hcall`.) -/
theorem claim_C8 (b : BuilderState) (alg : BuiltAlgorithm) (b2 : BuilderState)
    (h : build b = (Except.ok alg, b2))
    (hcall : b.callList = b.elements)
    (hnodup : alg.elementCallList.Nodup) :
    teardownCallOrder alg =
      alg.elementCallList.filter (fun e => decide (e ∈ alg.elementsOwnershipList)) ∧
    (∀ e ∈ alg.elementsOwnershipList, (teardownCallOrder alg).count e = 1) ∧
    (∀ (p : AlgParams) (fuel : Nat) (st st' : AlgState),
      populateTaskQueue p fuel st = some st' → st'.runFinished = true →
      st'.taskQueue.getLast? = some SimTask.teardown) := by
  have halg : alg.elementsOwnershipList =
        b.freeEnergyPerturbationElement.toList ++ b.elements ++ [b.trajectoryElement] ∧
      alg.elementCallList = b.checkpointHelper ::
        (b.freeEnergyPerturbationElement.toList ++ b.callList ++ [b.trajectoryElement]) := by
    unfold build at h
    by_cases hflag : b.algorithmHasBeenBuilt = true
    · rw [if_pos hflag] at h; simp at h
    · rw [if_neg hflag] at h
      by_cases hconn : allControllersConnected b = true
      · rw [if_pos hconn] at h
        simp only [Prod.mk.injEq, Except.ok.injEq] at h
        rw [← h.1]
        exact ⟨rfl, rfl⟩
      · rw [if_neg hconn] at h; simp at h
  obtain ⟨hown, hclist⟩ := halg
  have hown' : alg.elementCallList = b.checkpointHelper :: alg.elementsOwnershipList := by
    rw [hclist, hown, hcall]
  have htr : teardownCallOrder alg = alg.elementsOwnershipList := by
    unfold teardownCallOrder
    rw [foldl_append_singleton, List.nil_append]
  have hnodup' : alg.elementsOwnershipList.Nodup ∧
      b.checkpointHelper ∉ alg.elementsOwnershipList := by
    rw [hown'] at hnodup
    exact ⟨(List.nodup_cons.mp hnodup).2, (List.nodup_cons.mp hnodup).1⟩
  refine ⟨?_, ?_, ?_⟩
  · rw [htr, hown']
    rw [List.filter_cons_of_neg (by simpa using hnodup'.2)]
    rw [List.filter_eq_self.mpr]
    intro a ha
    simpa using ha
  · intro e he
    rw [htr]
    exact List.count_eq_one_of_mem hnodup'.1 he
  · intro p fuel st st' hpop hfin
    obtain ⟨n, _, _, _, _, hqeq, _⟩ := populateTaskQueue_some_spec p fuel st st' hpop
    rw [hqeq, hfin]
    simp only [if_pos rfl]
    exact List.getLast?_concat _

theorem claim_C8_witness :
    build builderA = (Except.ok algA, builderASpent) ∧
    builderA.callList = builderA.elements ∧
    algA.elementCallList.Nodup ∧
    (teardownCallOrder algA =
        algA.elementCallList.filter (fun e => decide (e ∈ algA.elementsOwnershipList)) ∧
      (∀ e ∈ algA.elementsOwnershipList, (teardownCallOrder algA).count e = 1) ∧
      (∀ (p : AlgParams) (fuel : Nat) (st st' : AlgState),
        populateTaskQueue p fuel st = some st' → st'.runFinished = true →
        st'.taskQueue.getLast? = some SimTask.teardown)) :=
  ⟨rfl, rfl, by decide,
    claim_C8 builderA algA builderASpent rfl rfl (by decide)⟩

/-! ### Box-matrix inversion (src/gromacs/math/invertmatrix.cpp)

The C++ code computes over `real`/`double` floating-point values.  The claim at
issue concerns only the entries that the code assigns the literal constant 0 and
the guard that decides whether a result is produced at all, so the arithmetic is
modelled over `ℚ`; the conclusion is independent of rounding. -/

/-- A 3x3 matrix; field `ab` is the entry `m(A, B)` of the C++ `Matrix3x3`. -/
structure Matrix3x3 where
  xx : ℚ
  xy : ℚ
  xz : ℚ
  yx : ℚ
  yy : ℚ
  yz : ℚ
  zx : ℚ
  zy : ℚ
  zz : ℚ
deriving DecidableEq, Repr

/-- Stand-in for the C++ constant `GMX_REAL_MIN` (the smallest positive
normalized `real`): a tiny positive rational.  Only its positivity matters to
the modelled control flow. -/
def GMX_REAL_MIN : ℚ := 1 / 10 ^ 38

/-- `std::fabs`: the absolute value. -/
def fabs (x : ℚ) : ℚ := if x < 0 then -x else x

/-- The `Matrix3x3` overload of `gmx::invertBoxMatrix`: if the product of the
diagonal entries is too close to zero, throw a range error (`none`); otherwise
return the inverse of the lower-triangular box matrix, with the three
above-diagonal entries assigned the constant 0.  (The `GMX_ASSERT` calls on the
above-diagonal entries of the input are debug-build no-ops and do not affect
the returned value.) -/
def invertBoxMatrix (src : Matrix3x3) : Option Matrix3x3 :=
  if fabs (src.xx * src.yy * src.zz) ≤ 100 * GMX_REAL_MIN then
    none
  else
    some
      { xx := 1 / src.xx,
        yy := 1 / src.yy,
        zz := 1 / src.zz,
        zx := (src.yx * src.zy * (1 / src.yy) - src.zx) * (1 / src.xx) * (1 / src.zz),
        yx := -src.yx * (1 / src.xx) * (1 / src.yy),
        zy := -src.zy * (1 / src.yy) * (1 / src.zz),
        xy := 0,
        xz := 0,
        yz := 0 }

/-- Claim C10: whenever the input passes the determinant guard, so that
`invertBoxMatrix` returns a matrix instead of raising the range error, the three
above-diagonal entries (XX,YY), (XX,ZZ) and (YY,ZZ) of the returned matrix are
exactly zero. -/
theorem claim_C10 (src dest : Matrix3x3) (h : invertBoxMatrix src = some dest) :
    dest.xy = 0 ∧ dest.xz = 0 ∧ dest.yz = 0 := by
  unfold invertBoxMatrix at h
  by_cases hg : fabs (src.xx * src.yy * src.zz) ≤ 100 * GMX_REAL_MIN
  · rw [if_pos hg] at h
    simp at h
  · rw [if_neg hg] at h
    simp only [Option.some.injEq] at h
    rw [← h]
    exact ⟨rfl, rfl, rfl⟩

/-- The identity matrix, an input passing the determinant guard. -/
def idMatrix : Matrix3x3 :=
  { xx := 1, xy := 0, xz := 0, yx := 0, yy := 1, yz := 0, zx := 0, zy := 0, zz := 1 }

theorem claim_C10_witness :
    invertBoxMatrix idMatrix = some idMatrix ∧
    (idMatrix.xy = 0 ∧ idMatrix.xz = 0 ∧ idMatrix.yz = 0) :=
  ⟨by norm_num [invertBoxMatrix, idMatrix, GMX_REAL_MIN, fabs],
    claim_C10 idMatrix idMatrix
      (by norm_num [invertBoxMatrix, idMatrix, GMX_REAL_MIN, fabs])⟩

end Gmx
